import Mathlib

/-!
# Pi fan PWM controller (`fanctl.c`): shallow embedding and checked properties

The control loop of `main` is embedded as a pure step function `tick` on an
explicit `Controller` state: one call of `tick` is one pass through the body of
the `while (TRUE)` loop, with the value returned by `getTemperature()` passed in
as an argument and the `pwmWrite` call (if any) returned as an `Option`.
The sensor read `getTemperature` is embedded as a function of the content of
the sensor file, with `fgets` and `atoi` modelled after ISO C.

C `int` values are modelled as mathematical integers.  Signed overflow is
undefined in C, so the embedding describes every execution in which the C
arithmetic is defined.  A second embedding, `tick32`, wraps every arithmetic
result to 32 bits; `trace32_eq_trace` shows that the two agree on every run
whose readings and history lie within `10^8`, which covers every value a
five-character sensor text can yield and every state the loop can reach.  The
right shift of a negative `int` is taken to be the arithmetic shift (floor
division), as on the Raspberry Pi toolchain the program targets.
-/

namespace FanCtl

/-! ## Constants (`#define`s of `fanctl.c`) -/

/-- Number of slots of the temperature history (`TEMPERATURES_COUNT`). -/
def TEMPERATURES_COUNT : Nat := 4

/-- Binary logarithm of the history size (`TEMPERATURES_COUNT_LOG`). -/
def TEMPERATURES_COUNT_LOG : Nat := 2

/-- Bit mask wrapping the write index (`TEMPERATURES_COUNT_MASK`). -/
def TEMPERATURES_COUNT_MASK : Nat := 3

/-- Shift normalising the sensor value (`TEMPERATURE_NORM_LOG`). -/
def TEMPERATURE_NORM_LOG : Nat := 10

/-- Target temperature (`TARGET_TEMPERATURE`). -/
def TARGET_TEMPERATURE : Int := 53

/-- Upper hysteresis delta (`TEMPERATURE_HYST_DELTA_UP`). -/
def TEMPERATURE_HYST_DELTA_UP : Int := 3

/-- Lower hysteresis delta (`TEMPERATURE_HYST_DELTA_DOWN`). -/
def TEMPERATURE_HYST_DELTA_DOWN : Int := 5

/-- Scale of the proportional component (`SPEED_MAIN_SCALE_FACTOR`). -/
def SPEED_MAIN_SCALE_FACTOR : Int := 10

/-- Scale of the corrective component (`SPEED_CORR_SCALE_FACTOR`). -/
def SPEED_CORR_SCALE_FACTOR : Int := 5

/-- Least speed of a spinning fan (`MIN_SPEED`). -/
def MIN_SPEED : Int := 50

/-- Greatest speed (`MAX_SPEED`). -/
def MAX_SPEED : Int := 200

/-! ## Auxiliary functions -/

/-- The function `clamp` of `fanctl.c`: two conditional assignments in sequence,
first against `min`, then against `max`. -/
def clamp (value min max : Int) : Int :=
  let value := if value < min then min else value
  let value := if value > max then max else value
  value

/-- The local constant array `minTemperatures` of `main`, as a function of the
index: element 0 is `TARGET_TEMPERATURE + TEMPERATURE_HYST_DELTA_UP`, element 1
is `TARGET_TEMPERATURE - TEMPERATURE_HYST_DELTA_DOWN`. -/
def minTemperatures (i : Nat) : Int :=
  match i with
  | 0 => TARGET_TEMPERATURE + TEMPERATURE_HYST_DELTA_UP
  | _ => TARGET_TEMPERATURE - TEMPERATURE_HYST_DELTA_DOWN

/-! ## State -/

/-- The array `int temperatures[TEMPERATURES_COUNT]`: four slots. -/
structure Temperatures where
  /-- Slot `temperatures[0]`. -/
  t0 : Int
  /-- Slot `temperatures[1]`. -/
  t1 : Int
  /-- Slot `temperatures[2]`. -/
  t2 : Int
  /-- Slot `temperatures[3]`. -/
  t3 : Int
deriving DecidableEq, Repr

/-- Read of `temperatures[i]`; the array has no slot beyond 3 and the program
never reads one, the model answers with slot 3 there. -/
def Temperatures.get (h : Temperatures) (i : Nat) : Int :=
  match i with
  | 0 => h.t0
  | 1 => h.t1
  | 2 => h.t2
  | _ => h.t3

/-- The assignment `temperatures[i] = v`.  The program only ever writes at an
index in `0..3`; at any other index the model leaves the array as it is. -/
def Temperatures.set (h : Temperatures) (i : Nat) (v : Int) : Temperatures :=
  match i with
  | 0 => { h with t0 := v }
  | 1 => { h with t1 := v }
  | 2 => { h with t2 := v }
  | 3 => { h with t3 := v }
  | _ => h

/-- The variables of `main` that live across iterations of the loop. -/
structure Controller where
  /-- The temperature history `temperatures`. -/
  temperatures : Temperatures
  /-- The write index `crtTemperatureNo`. -/
  crtTemperatureNo : Nat
  /-- The activation flag `isFanActive` (`TRUE`/`FALSE`). -/
  isFanActive : Bool
  /-- The correction accumulator `fanSpeedCorretion` (spelt as in the source). -/
  fanSpeedCorretion : Int
  /-- The speed `fanSpeed` left by the last iteration. -/
  fanSpeed : Int
deriving DecidableEq, Repr

/-- State of `main` when the loop is entered: the history pre-filled with the
first reading, index 0, fan idle, speed 0, correction 0. -/
def mainInit (temperature : Int) : Controller :=
  { temperatures := ⟨temperature, temperature, temperature, temperature⟩
    crtTemperatureNo := 0
    isFanActive := false
    fanSpeedCorretion := 0
    fanSpeed := 0 }

/-! ## The loop body -/

/-- One iteration of the `while (TRUE)` loop of `main`, for the reading
`temperature` returned by `getTemperature()`.  The result is the state left for
the next iteration and the argument of the `pwmWrite` call, if one is made. -/
def tick (s : Controller) (temperature : Int) : Controller × Option Int :=
  let temperatures := s.temperatures.set s.crtTemperatureNo temperature
  let crtTemperatureNo := (s.crtTemperatureNo + 1) &&& TEMPERATURES_COUNT_MASK
  let lastFanSpeed := s.fanSpeed
  let s' : Controller :=
    if temperature > minTemperatures s.isFanActive.toNat then
      let fanSpeed :=
        clamp (SPEED_MAIN_SCALE_FACTOR * (temperature - TARGET_TEMPERATURE)) 0 MAX_SPEED
      let temperature :=
        temperatures.t0 + temperatures.t1 + temperatures.t2 + temperatures.t3
      let temperature := temperature >>> TEMPERATURES_COUNT_LOG
      let fanSpeedCorretion :=
        s.fanSpeedCorretion + SPEED_CORR_SCALE_FACTOR * (temperature - TARGET_TEMPERATURE)
      let fanSpeedCorretion := clamp fanSpeedCorretion (-fanSpeed) (MAX_SPEED - fanSpeed)
      let fanSpeed := fanSpeed + fanSpeedCorretion
      let fanSpeed := if fanSpeed < MIN_SPEED then MIN_SPEED else fanSpeed
      { temperatures := temperatures
        crtTemperatureNo := crtTemperatureNo
        isFanActive := true
        fanSpeedCorretion := fanSpeedCorretion
        fanSpeed := fanSpeed }
    else if s.isFanActive then
      { temperatures := temperatures
        crtTemperatureNo := crtTemperatureNo
        isFanActive := false
        fanSpeedCorretion := 0
        fanSpeed := 0 }
    else
      { temperatures := temperatures
        crtTemperatureNo := crtTemperatureNo
        isFanActive := s.isFanActive
        fanSpeedCorretion := s.fanSpeedCorretion
        fanSpeed := s.fanSpeed }
  (s', if s'.fanSpeed ≠ lastFanSpeed then some s'.fanSpeed else none)

/-- The iterations of the loop for a sequence of readings: the result of every
tick, in order. -/
def trace (s : Controller) : List Int → List (Controller × Option Int)
  | [] => []
  | t :: ts => tick s t :: trace (tick s t).1 ts

/-- State after the loop has consumed a sequence of readings. -/
def run (s : Controller) (ts : List Int) : Controller :=
  ts.foldl (fun s t => (tick s t).1) s

/-- The `pwmWrite` calls made by the loop over a sequence of readings. -/
def writes (s : Controller) (ts : List Int) : List Int :=
  (trace s ts).filterMap Prod.snd

/-! ## The sensor read

`getTemperature` reads the text of the sensor file with the C library
functions `fgets` and `atoi`; these are modelled after their ISO C
descriptions, on the content of the file as a list of characters. -/

/-- Characters read by `fgets` when at most `n` may still be stored: reading
stops after a newline, which is kept, at the end of the stream, or when `n`
characters have been stored. -/
def fgetsAux : Nat → List Char → List Char
  | 0, _ => []
  | _ + 1, [] => []
  | n + 1, c :: cs => if c = Char.ofNat 10 then [c] else c :: fgetsAux n cs

/-- The C library function `fgets(text, size, device)`, as the text it leaves
in the buffer: at most `size - 1` characters of the stream. -/
def fgets (size : Nat) (device : List Char) : List Char :=
  fgetsAux (size - 1) device

/-- The C library predicate `isspace` in the "C" locale: space, and the
control characters from horizontal tab (9) to carriage return (13). -/
def isspace (c : Char) : Bool :=
  c.toNat = 32 || (9 ≤ c.toNat && c.toNat ≤ 13)

/-- The digit loop of `atoi`: the decimal value of the leading digits, on top
of the value `acc` read so far. -/
def atoiDigits (acc : Int) : List Char → Int
  | [] => acc
  | c :: cs =>
    if c.isDigit then atoiDigits (10 * acc + ((c.toNat : Int) - 48)) cs else acc

/-- The C library function `atoi`: leading white space is skipped, an optional
sign is read, then the leading decimal digits are converted; text without digits
gives 0. -/
def atoi (text : List Char) : Int :=
  match text.dropWhile isspace with
  | [] => 0
  | c :: rest =>
    if c = Char.ofNat 45 then -atoiDigits 0 rest
    else if c = Char.ofNat 43 then atoiDigits 0 rest
    else atoiDigits 0 (c :: rest)

/-- The function `getTemperature` of `fanctl.c`, for the content `device` of
the sensor file: `fgets` with a buffer of 6, `atoi`, then the shift by
`TEMPERATURE_NORM_LOG`. -/
def getTemperature (device : List Char) : Int :=
  let text := fgets 6 device
  let temperature := atoi text
  let temperature := temperature >>> TEMPERATURE_NORM_LOG
  temperature

/-! ## The loop body on a 32-bit machine

A second embedding of the same loop body, in which every addition, subtraction
and multiplication of `int`s is reduced to the 32-bit two's complement range, as
the hardware does.  It is used only to show that the integer embedding `tick`
is exact for the values the program meets. -/

/-- Reduction of an integer to the range of a 32-bit two's complement `int`. -/
def wrap32 (x : Int) : Int :=
  (x + 2147483648) % 4294967296 - 2147483648

/-- The loop body with 32-bit wrapping `int` arithmetic. -/
def tick32 (s : Controller) (temperature : Int) : Controller × Option Int :=
  let temperatures := s.temperatures.set s.crtTemperatureNo temperature
  let crtTemperatureNo := (s.crtTemperatureNo + 1) &&& TEMPERATURES_COUNT_MASK
  let lastFanSpeed := s.fanSpeed
  let s' : Controller :=
    if temperature > minTemperatures s.isFanActive.toNat then
      let fanSpeed :=
        clamp (wrap32 (SPEED_MAIN_SCALE_FACTOR * wrap32 (temperature - TARGET_TEMPERATURE)))
          0 MAX_SPEED
      let temperature :=
        wrap32 (wrap32 (wrap32 (temperatures.t0 + temperatures.t1) + temperatures.t2)
          + temperatures.t3)
      let temperature := temperature >>> TEMPERATURES_COUNT_LOG
      let fanSpeedCorretion :=
        wrap32 (s.fanSpeedCorretion
          + wrap32 (SPEED_CORR_SCALE_FACTOR * wrap32 (temperature - TARGET_TEMPERATURE)))
      let fanSpeedCorretion :=
        clamp fanSpeedCorretion (wrap32 (-fanSpeed)) (wrap32 (MAX_SPEED - fanSpeed))
      let fanSpeed := wrap32 (fanSpeed + fanSpeedCorretion)
      let fanSpeed := if fanSpeed < MIN_SPEED then MIN_SPEED else fanSpeed
      { temperatures := temperatures
        crtTemperatureNo := crtTemperatureNo
        isFanActive := true
        fanSpeedCorretion := fanSpeedCorretion
        fanSpeed := fanSpeed }
    else if s.isFanActive then
      { temperatures := temperatures
        crtTemperatureNo := crtTemperatureNo
        isFanActive := false
        fanSpeedCorretion := 0
        fanSpeed := 0 }
    else
      { temperatures := temperatures
        crtTemperatureNo := crtTemperatureNo
        isFanActive := s.isFanActive
        fanSpeedCorretion := s.fanSpeedCorretion
        fanSpeed := s.fanSpeed }
  (s', if s'.fanSpeed ≠ lastFanSpeed then some s'.fanSpeed else none)

/-- The iterations of the 32-bit loop for a sequence of readings. -/
def trace32 (s : Controller) : List Int → List (Controller × Option Int)
  | [] => []
  | t :: ts => tick32 s t :: trace32 (tick32 s t).1 ts

/-- Every slot of the history is at most `b` in absolute value. -/
def Temperatures.Within (h : Temperatures) (b : Int) : Prop :=
  (-b ≤ h.t0 ∧ h.t0 ≤ b) ∧ (-b ≤ h.t1 ∧ h.t1 ≤ b) ∧
    (-b ≤ h.t2 ∧ h.t2 ≤ b) ∧ (-b ≤ h.t3 ∧ h.t3 ≤ b)

instance (h : Temperatures) (b : Int) : Decidable (h.Within b) := by
  unfold Temperatures.Within
  infer_instance

/-- States on which the 32-bit loop body cannot overflow: history slots within
`10^8`, correction within `10^9`. -/
def Controller.Small (s : Controller) : Prop :=
  s.temperatures.Within 100000000 ∧
    -1000000000 ≤ s.fanSpeedCorretion ∧ s.fanSpeedCorretion ≤ 1000000000

instance (s : Controller) : Decidable s.Small := by
  unfold Controller.Small
  infer_instance

/-! ## Reference formulas of the specification

These follow the wording of the specification, not the code; the theorems
below compare them with the embedding of the code. -/

/-- Mathematical clamp of the specification: `x` limited to `[lo, hi]`. -/
def specClamp (x lo hi : Int) : Int :=
  max lo (min x hi)

/-- Base speed of the specification: `clamp(10 * (t - 53), 0, 200)`. -/
def specBase (t : Int) : Int :=
  specClamp (10 * (t - 53)) 0 200

/-- Moving average of the specification: the floor of the mean of the four
history slots. -/
def specAvg (h : Temperatures) : Int :=
  ⌊((h.t0 + h.t1 + h.t2 + h.t3 : Int) : ℚ) / 4⌋

/-- Threshold as the specification words it: `TARGET + HYST_UP` when active,
`TARGET - HYST_DOWN` when idle. -/
def specThreshold (active : Bool) : Int :=
  if active then 53 + 3 else 53 - 5

/-- Content of the sensor file reporting `m` millidegrees: the decimal text of
`m` followed by a newline. -/
def sensorText (m : Nat) : List Char :=
  (Nat.repr m).toList ++ [Char.ofNat 10]

/-- Actuator writes as the specification words them, over the sequence of
speeds computed by successive ticks: a speed is written exactly when it differs
from the speed of the tick before (`last`). -/
def specWrites (last : Int) : List Int → List Int
  | [] => []
  | v :: vs => if v ≠ last then v :: specWrites v vs else specWrites v vs

/-! ## Basic facts about the embedding -/

theorem clamp_eq_specClamp (x lo hi : Int) (h : lo ≤ hi) :
    clamp x lo hi = specClamp x lo hi := by
  simp only [clamp, specClamp]
  split_ifs <;> omega

theorem shiftRight_log_eq_specAvg (h : Temperatures) :
    (h.t0 + h.t1 + h.t2 + h.t3) >>> TEMPERATURES_COUNT_LOG = specAvg h := by
  have hfloor := Rat.floor_intCast_div_natCast (h.t0 + h.t1 + h.t2 + h.t3) 4
  simp only [specAvg, TEMPERATURES_COUNT_LOG, Int.shiftRight_eq_div_pow]
  rw [show ((4 : ℕ) : ℚ) = 4 by norm_num] at hfloor
  rw [hfloor]

theorem specAvg_eq_div (h : Temperatures) :
    specAvg h = (h.t0 + h.t1 + h.t2 + h.t3) / 4 := by
  have hfloor := Rat.floor_intCast_div_natCast (h.t0 + h.t1 + h.t2 + h.t3) 4
  rw [show ((4 : ℕ) : ℚ) = 4 by norm_num] at hfloor
  simpa [specAvg] using hfloor

theorem minTemperatures_idle : minTemperatures (false : Bool).toNat = 56 := by
  decide

theorem minTemperatures_active : minTemperatures (true : Bool).toNat = 48 := by
  decide

theorem specBase_bounds (t : Int) : 0 ≤ specBase t ∧ specBase t ≤ 200 := by
  simp only [specBase, specClamp]
  omega

/-- The state left by a tick that takes the fan-on branch, in the formulas of
the specification. -/
theorem tick_on (s : Controller) (t : Int)
    (h : t > minTemperatures s.isFanActive.toNat) :
    (tick s t).1 =
      { temperatures := s.temperatures.set s.crtTemperatureNo t
        crtTemperatureNo := (s.crtTemperatureNo + 1) &&& TEMPERATURES_COUNT_MASK
        isFanActive := true
        fanSpeedCorretion :=
          specClamp
            (s.fanSpeedCorretion + 5 * (specAvg (s.temperatures.set s.crtTemperatureNo t) - 53))
            (-specBase t) (200 - specBase t)
        fanSpeed :=
          max
            (specBase t +
              specClamp
                (s.fanSpeedCorretion
                  + 5 * (specAvg (s.temperatures.set s.crtTemperatureNo t) - 53))
                (-specBase t) (200 - specBase t))
            50 } := by
  have hb := specBase_bounds t
  have hbase : clamp (SPEED_MAIN_SCALE_FACTOR * (t - TARGET_TEMPERATURE)) 0 MAX_SPEED
      = specBase t := by
    rw [clamp_eq_specClamp _ _ _ (by decide)]
    rfl
  simp only [tick, if_pos h, hbase, shiftRight_log_eq_specAvg]
  rw [clamp_eq_specClamp _ _ _ (by simp only [MAX_SPEED]; omega)]
  simp only [SPEED_CORR_SCALE_FACTOR, TARGET_TEMPERATURE, MAX_SPEED, MIN_SPEED]
  congr 1
  split_ifs <;> omega

/-- The state left by a tick of an active controller that does not take the
fan-on branch. -/
theorem tick_off (s : Controller) (t : Int) (hact : s.isFanActive = true)
    (h : ¬ t > minTemperatures s.isFanActive.toNat) :
    (tick s t).1 =
      { temperatures := s.temperatures.set s.crtTemperatureNo t
        crtTemperatureNo := (s.crtTemperatureNo + 1) &&& TEMPERATURES_COUNT_MASK
        isFanActive := false
        fanSpeedCorretion := 0
        fanSpeed := 0 } := by
  have h' := h
  rw [hact] at h'
  simp only [tick, hact, if_neg h', if_true]

/-- The state left by a tick of an idle controller that does not take the
fan-on branch. -/
theorem tick_stay (s : Controller) (t : Int) (hidle : s.isFanActive = false)
    (h : ¬ t > minTemperatures s.isFanActive.toNat) :
    (tick s t).1 =
      { temperatures := s.temperatures.set s.crtTemperatureNo t
        crtTemperatureNo := (s.crtTemperatureNo + 1) &&& TEMPERATURES_COUNT_MASK
        isFanActive := false
        fanSpeedCorretion := s.fanSpeedCorretion
        fanSpeed := s.fanSpeed } := by
  have h' := h
  rw [hidle] at h'
  simp only [tick, hidle, if_neg h']
  rfl

/-- The `pwmWrite` argument of a tick, read off the state it leaves. -/
theorem tick_snd (s : Controller) (t : Int) :
    (tick s t).2 =
      if (tick s t).1.fanSpeed ≠ s.fanSpeed then some (tick s t).1.fanSpeed else none :=
  rfl

/-- A tick keeps the speed inside `[0, 200]`, and at least 50 when it leaves the
fan active, from any state whose speed is inside `[0, 200]`. -/
theorem tick_speed_bounds (s : Controller) (t : Int)
    (h0 : 0 ≤ s.fanSpeed) (h1 : s.fanSpeed ≤ 200) :
    0 ≤ (tick s t).1.fanSpeed ∧ (tick s t).1.fanSpeed ≤ 200 ∧
      ((tick s t).1.isFanActive = true → 50 ≤ (tick s t).1.fanSpeed) := by
  by_cases h : t > minTemperatures s.isFanActive.toNat
  · rw [tick_on s t h]
    have hb := specBase_bounds t
    simp only [specClamp]
    omega
  · cases hact : s.isFanActive
    · rw [tick_stay s t hact h]
      simp [h0, h1]
    · rw [tick_off s t hact h]
      simp

theorem trace_speed_bounds (ts : List Int) :
    ∀ s : Controller, 0 ≤ s.fanSpeed → s.fanSpeed ≤ 200 →
      ∀ r ∈ trace s ts,
        0 ≤ r.1.fanSpeed ∧ r.1.fanSpeed ≤ 200 ∧
          (r.1.isFanActive = true → 50 ≤ r.1.fanSpeed) ∧
          (∀ v, r.2 = some v → 0 ≤ v ∧ v ≤ 200) := by
  induction ts with
  | nil => intro s _ _ r hr; simp [trace] at hr
  | cons t ts ih =>
    intro s h0 h1 r hr
    have hb := tick_speed_bounds s t h0 h1
    simp only [trace, List.mem_cons] at hr
    rcases hr with rfl | hr
    · refine ⟨hb.1, hb.2.1, hb.2.2, ?_⟩
      intro v hv
      rw [tick_snd] at hv
      split_ifs at hv
      · cases hv
        exact ⟨hb.1, hb.2.1⟩
    · exact ih _ hb.1 hb.2.1 r hr

/-! ## The integer embedding is exact on the 32-bit machine -/

theorem wrap32_of_small (x : Int) (h0 : -2147483648 ≤ x) (h1 : x < 2147483648) :
    wrap32 x = x := by
  simp only [wrap32]
  omega

theorem Temperatures.within_set (h : Temperatures) (i : Nat) (v b : Int)
    (hh : h.Within b) (hv0 : -b ≤ v) (hv1 : v ≤ b) : (h.set i v).Within b := by
  obtain ⟨h0, h1, h2, h3⟩ := hh
  match i with
  | 0 => exact ⟨⟨hv0, hv1⟩, h1, h2, h3⟩
  | 1 => exact ⟨h0, ⟨hv0, hv1⟩, h2, h3⟩
  | 2 => exact ⟨h0, h1, ⟨hv0, hv1⟩, h3⟩
  | 3 => exact ⟨h0, h1, h2, ⟨hv0, hv1⟩⟩
  | _ + 4 => exact ⟨h0, h1, h2, h3⟩

/-- On a small state and a reading within `10^8` no operation of the loop body
leaves the 32-bit range: the 32-bit loop body and the integer one agree. -/
theorem tick32_eq_tick (s : Controller) (t : Int) (hs : s.Small)
    (ht0 : -100000000 ≤ t) (ht1 : t ≤ 100000000) : tick32 s t = tick s t := by
  obtain ⟨hh, hc0, hc1⟩ := hs
  have hset := Temperatures.within_set s.temperatures s.crtTemperatureNo t _ hh ht0 ht1
  obtain ⟨⟨a0, a1⟩, ⟨b0, b1⟩, ⟨c0, c1⟩, ⟨d0, d1⟩⟩ := hset
  have hb := specBase_bounds t
  have hbase : clamp (SPEED_MAIN_SCALE_FACTOR * (t - TARGET_TEMPERATURE)) 0 MAX_SPEED
      = specBase t := by
    rw [clamp_eq_specClamp _ _ _ (by decide)]
    rfl
  have hsum := shiftRight_log_eq_specAvg (s.temperatures.set s.crtTemperatureNo t)
  have havg := specAvg_eq_div (s.temperatures.set s.crtTemperatureNo t)
  simp only [tick32, tick]
  generalize s.temperatures.set s.crtTemperatureNo t = h' at a0 a1 b0 b1 c0 c1 d0 d1 hsum havg ⊢
  have e1 : wrap32 (t - TARGET_TEMPERATURE) = t - TARGET_TEMPERATURE := by
    apply wrap32_of_small <;> simp only [TARGET_TEMPERATURE] <;> omega
  have e2 : wrap32 (SPEED_MAIN_SCALE_FACTOR * (t - TARGET_TEMPERATURE))
      = SPEED_MAIN_SCALE_FACTOR * (t - TARGET_TEMPERATURE) := by
    apply wrap32_of_small <;> simp only [SPEED_MAIN_SCALE_FACTOR, TARGET_TEMPERATURE] <;> omega
  have e3 : wrap32 (h'.t0 + h'.t1) = h'.t0 + h'.t1 := by
    apply wrap32_of_small <;> omega
  have e4 : wrap32 (h'.t0 + h'.t1 + h'.t2) = h'.t0 + h'.t1 + h'.t2 := by
    apply wrap32_of_small <;> omega
  have e5 : wrap32 (h'.t0 + h'.t1 + h'.t2 + h'.t3) = h'.t0 + h'.t1 + h'.t2 + h'.t3 := by
    apply wrap32_of_small <;> omega
  have e6 : wrap32 (specAvg h' - TARGET_TEMPERATURE) = specAvg h' - TARGET_TEMPERATURE := by
    apply wrap32_of_small <;> simp only [TARGET_TEMPERATURE] <;> omega
  have e7 : wrap32 (SPEED_CORR_SCALE_FACTOR * (specAvg h' - TARGET_TEMPERATURE))
      = SPEED_CORR_SCALE_FACTOR * (specAvg h' - TARGET_TEMPERATURE) := by
    apply wrap32_of_small <;> simp only [SPEED_CORR_SCALE_FACTOR, TARGET_TEMPERATURE] <;> omega
  have e8 : wrap32 (s.fanSpeedCorretion
        + SPEED_CORR_SCALE_FACTOR * (specAvg h' - TARGET_TEMPERATURE))
      = s.fanSpeedCorretion + SPEED_CORR_SCALE_FACTOR * (specAvg h' - TARGET_TEMPERATURE) := by
    apply wrap32_of_small <;> simp only [SPEED_CORR_SCALE_FACTOR, TARGET_TEMPERATURE] <;> omega
  have e9 : wrap32 (-specBase t) = -specBase t := by
    apply wrap32_of_small <;> omega
  have e10 : wrap32 (MAX_SPEED - specBase t) = MAX_SPEED - specBase t := by
    apply wrap32_of_small <;> simp only [MAX_SPEED] <;> omega
  have e11 : ∀ x : Int,
      wrap32 (specBase t + clamp x (-specBase t) (MAX_SPEED - specBase t))
        = specBase t + clamp x (-specBase t) (MAX_SPEED - specBase t) := by
    intro x
    rw [clamp_eq_specClamp _ _ _ (by simp only [MAX_SPEED]; omega)]
    apply wrap32_of_small <;> simp only [specClamp, MAX_SPEED] <;> omega
  simp only [e1, e2, e3, e4, e5, hbase, hsum, e6, e7, e8, e9, e10, e11]

/-- A tick leaves a small state small. -/
theorem tick_small (s : Controller) (t : Int) (hs : s.Small)
    (ht0 : -100000000 ≤ t) (ht1 : t ≤ 100000000) : (tick s t).1.Small := by
  obtain ⟨hh, hc0, hc1⟩ := hs
  have hset := Temperatures.within_set s.temperatures s.crtTemperatureNo t _ hh ht0 ht1
  have hb := specBase_bounds t
  by_cases h : t > minTemperatures s.isFanActive.toNat
  · rw [tick_on s t h]
    refine ⟨hset, ?_, ?_⟩ <;> simp only [specClamp] <;> omega
  · cases hact : s.isFanActive
    · rw [tick_stay s t hact h]
      exact ⟨hset, hc0, hc1⟩
    · rw [tick_off s t hact h]
      exact ⟨hset, show (-1000000000 : Int) ≤ 0 by decide, show (0 : Int) ≤ 1000000000 by decide⟩

/-- Over every run from a small state with readings within `10^8` (which covers
every value a five-character sensor text can yield) the 32-bit loop and the
integer embedding produce the same states and the same `pwmWrite` calls. -/
theorem trace32_eq_trace (ts : List Int) :
    ∀ s : Controller, s.Small → (∀ t ∈ ts, -100000000 ≤ t ∧ t ≤ 100000000) →
      trace32 s ts = trace s ts := by
  induction ts with
  | nil => intro s _ _; rfl
  | cons t ts ih =>
    intro s hs hts
    have ht := hts t (by simp)
    have heq := tick32_eq_tick s t hs ht.1 ht.2
    simp only [trace32, trace, heq]
    rw [ih _ (tick_small s t hs ht.1 ht.2) (fun u hu => hts u (by simp [hu]))]

/-! ## Checked claims -/

/-- C1: for every state and every reading `t` above the threshold applied on
that tick, the tick sets `active = true`,
`correction' = clamp(correction + 5*(avg - 53), -base, 200 - base)` and
`speed' = max(base + correction', 50)`, with `base = clamp(10*(t - 53), 0, 200)`
and `avg` the floored mean of the history after `t` has been stored in it. -/
theorem fan_on_branch_formulas (s : Controller) (t : Int)
    (h : t > minTemperatures s.isFanActive.toNat) :
    (tick s t).1.isFanActive = true ∧
    (tick s t).1.temperatures = s.temperatures.set s.crtTemperatureNo t ∧
    (tick s t).1.fanSpeedCorretion =
      specClamp (s.fanSpeedCorretion + 5 * (specAvg (tick s t).1.temperatures - 53))
        (-specBase t) (200 - specBase t) ∧
    (tick s t).1.fanSpeed = max (specBase t + (tick s t).1.fanSpeedCorretion) 50 := by
  rw [tick_on s t h]
  exact ⟨rfl, rfl, rfl, rfl⟩

/-- Witness of C1: the start state with history 20 and the reading 57. -/
theorem fan_on_branch_formulas_witness :
    (57 : Int) > minTemperatures (mainInit 20).isFanActive.toNat ∧
    (tick (mainInit 20) 57).1.isFanActive = true ∧
    (tick (mainInit 20) 57).1.fanSpeedCorretion = -40 ∧
    (tick (mainInit 20) 57).1.fanSpeed = 50 :=
  ⟨by decide, (fan_on_branch_formulas (mainInit 20) 57 (by decide)).1, by decide, by decide⟩

/-- C2: for every sequence of readings each in `-40..150`, started idle with
speed 0, any history and any prior value of the correction accumulator, the
speed after every tick (and every value written to the actuator) is within
`[0, 200]`, and is at least 50 whenever the controller is active after that
tick.  (Over the integers the bound on the readings is not used.) -/
theorem speed_within_bounds (h : Temperatures) (i : Nat) (c : Int) (ts : List Int)
    (_hts : ∀ t ∈ ts, -40 ≤ t ∧ t ≤ 150) :
    ∀ r ∈ trace ⟨h, i, false, c, 0⟩ ts,
      0 ≤ r.1.fanSpeed ∧ r.1.fanSpeed ≤ 200 ∧
        (r.1.isFanActive = true → 50 ≤ r.1.fanSpeed) ∧
        (∀ v, r.2 = some v → 0 ≤ v ∧ v ≤ 200) :=
  trace_speed_bounds ts ⟨h, i, false, c, 0⟩ (le_refl 0) (show (0 : Int) ≤ 200 by decide)

/-- Witness of C2: three readings from the ends of the range, with a large prior
correction. -/
theorem speed_within_bounds_witness :
    (∀ t ∈ [(57 : Int), 150, -40], -40 ≤ t ∧ t ≤ 150) ∧
    ∀ r ∈ trace ⟨⟨20, 20, 20, 20⟩, 0, false, 100000, 0⟩ [57, 150, -40],
      0 ≤ r.1.fanSpeed ∧ r.1.fanSpeed ≤ 200 ∧
        (r.1.isFanActive = true → 50 ≤ r.1.fanSpeed) ∧
        (∀ v, r.2 = some v → 0 ≤ v ∧ v ≤ 200) :=
  ⟨by decide, speed_within_bounds ⟨20, 20, 20, 20⟩ 0 100000 [57, 150, -40] (by decide)⟩

/-- The fan is active after a tick exactly when the reading exceeds the
element of `minTemperatures` selected by the activation flag before the tick. -/
theorem tick_active_iff (s : Controller) (t : Int) :
    (tick s t).1.isFanActive = true ↔ t > minTemperatures s.isFanActive.toNat := by
  by_cases h : t > minTemperatures s.isFanActive.toNat
  · rw [tick_on s t h]
    exact ⟨fun _ => h, fun _ => rfl⟩
  · have hidle : (tick s t).1.isFanActive = false := by
      cases hact : s.isFanActive
      · rw [tick_stay s t hact h]
      · rw [tick_off s t hact h]
    rw [hidle]
    exact ⟨fun h' => Bool.noConfusion h', fun h' => absurd h' h⟩

/-- C3, as stated, fails: in the idle start state the reading 50 exceeds the
threshold the claim names for Idle (48), but the code compares it against 56 and
does not take the fan-on branch (the fan stays idle, speed 0, nothing written). -/
theorem threshold_claim_counterexample :
    (mainInit 20).isFanActive = false ∧
    specThreshold (mainInit 20).isFanActive = 48 ∧
    (50 : Int) > specThreshold (mainInit 20).isFanActive ∧
    minTemperatures (mainInit 20).isFanActive.toNat = 56 ∧
    ¬ ((50 : Int) > minTemperatures (mainInit 20).isFanActive.toNat) ∧
    tick (mainInit 20) 50 = (⟨⟨50, 20, 20, 20⟩, 1, false, 0, 0⟩, none) := by
  decide

/-- C3, amended: the tick compares `t` against `TARGET - HYST_DOWN` (48) when
the controller is Active and against `TARGET + HYST_UP` (56) when it is Idle,
and takes the fan-on branch (leaving the controller Active) exactly when `t`
exceeds that threshold. -/
theorem threshold_by_activation (s : Controller) (t : Int) :
    minTemperatures s.isFanActive.toNat =
        (if s.isFanActive = true then TARGET_TEMPERATURE - TEMPERATURE_HYST_DELTA_DOWN
          else TARGET_TEMPERATURE + TEMPERATURE_HYST_DELTA_UP) ∧
    TARGET_TEMPERATURE - TEMPERATURE_HYST_DELTA_DOWN = 48 ∧
    TARGET_TEMPERATURE + TEMPERATURE_HYST_DELTA_UP = 56 ∧
    ((tick s t).1.isFanActive = true ↔
      t > (if s.isFanActive = true then (48 : Int) else 56)) := by
  refine ⟨?_, by decide, by decide, ?_⟩
  · cases s.isFanActive <;> rfl
  · rw [tick_active_iff]
    cases s.isFanActive
    · rw [minTemperatures_idle]; simp
    · rw [minTemperatures_active]; simp

/-- A run of an idle controller over readings of 55 stays idle throughout. -/
theorem trace_idle_at_55 (n : Nat) :
    ∀ s : Controller, s.isFanActive = false →
      ∀ r ∈ trace s (List.replicate n 55), r.1.isFanActive = false := by
  induction n with
  | zero => intro s _ r hr; simp [trace] at hr
  | succ n ih =>
    intro s hidle r hr
    have hno : ¬ (55 : Int) > minTemperatures s.isFanActive.toNat := by
      rw [hidle, minTemperatures_idle]; decide
    have hstep : (tick s 55).1.isFanActive = false := by
      rw [tick_stay s 55 hidle hno]
    simp only [List.replicate_succ, trace, List.mem_cons] at hr
    rcases hr with rfl | hr
    · exact hstep
    · exact ih _ hstep r hr

/-- C4: from every Idle state the controller is Active after a tick if and only
if the reading exceeds `TARGET + HYST_UP` (56); with the reading held at 55 for
any number of ticks it is Idle after every tick, and a reading of 57 makes it
Active on that same tick. -/
theorem idle_turns_on_above_56 (s : Controller) (hidle : s.isFanActive = false) :
    TARGET_TEMPERATURE + TEMPERATURE_HYST_DELTA_UP = 56 ∧
    (∀ t : Int, (tick s t).1.isFanActive = true ↔ t > 56) ∧
    (∀ n : Nat, ∀ r ∈ trace s (List.replicate n 55), r.1.isFanActive = false) ∧
    (tick s 57).1.isFanActive = true := by
  have hiff : ∀ t : Int, (tick s t).1.isFanActive = true ↔ t > 56 := by
    intro t
    rw [tick_active_iff, hidle, minTemperatures_idle]
  exact ⟨by decide, hiff, fun n => trace_idle_at_55 n s hidle, (hiff 57).2 (by decide)⟩

/-- Witness of C4: the start state with history 20. -/
theorem idle_turns_on_above_56_witness :
    (mainInit 20).isFanActive = false ∧
    (∀ r ∈ trace (mainInit 20) (List.replicate 6 55), r.1.isFanActive = false) ∧
    (tick (mainInit 20) 57).1.isFanActive = true :=
  ⟨rfl, (idle_turns_on_above_56 (mainInit 20) rfl).2.2.1 6,
    (idle_turns_on_above_56 (mainInit 20) rfl).2.2.2⟩

/-- C5: from every Active state, one tick with reading
`TARGET - HYST_DOWN - 1` (47) leaves speed 0, correction 0 and the controller
Idle after that same tick. -/
theorem off_reset_at_47 (s : Controller) (hact : s.isFanActive = true) :
    TARGET_TEMPERATURE - TEMPERATURE_HYST_DELTA_DOWN - 1 = 47 ∧
    (tick s 47).1.fanSpeed = 0 ∧
    (tick s 47).1.fanSpeedCorretion = 0 ∧
    (tick s 47).1.isFanActive = false := by
  have hno : ¬ (47 : Int) > minTemperatures s.isFanActive.toNat := by
    rw [hact, minTemperatures_active]; decide
  rw [tick_off s 47 hact hno]
  exact ⟨by decide, rfl, rfl, rfl⟩

/-- Witness of C5: an active state with speed 120 and correction 70. -/
theorem off_reset_at_47_witness :
    (⟨⟨60, 60, 60, 60⟩, 2, true, 70, 120⟩ : Controller).isFanActive = true ∧
    (tick ⟨⟨60, 60, 60, 60⟩, 2, true, 70, 120⟩ 47).1.fanSpeed = 0 ∧
    (tick ⟨⟨60, 60, 60, 60⟩, 2, true, 70, 120⟩ 47).1.fanSpeedCorretion = 0 ∧
    (tick ⟨⟨60, 60, 60, 60⟩, 2, true, 70, 120⟩ 47).1.isFanActive = false :=
  ⟨rfl, (off_reset_at_47 ⟨⟨60, 60, 60, 60⟩, 2, true, 70, 120⟩ rfl).2⟩

/-- C6, as stated, fails: an Active controller that reads exactly
`TARGET - HYST_DOWN` (48) is Idle after the tick, although 48 is not strictly
below 48. -/
theorem turn_off_strict_counterexample :
    (⟨⟨60, 60, 60, 60⟩, 2, true, 70, 120⟩ : Controller).isFanActive = true ∧
    (tick ⟨⟨60, 60, 60, 60⟩, 2, true, 70, 120⟩ 48).1.isFanActive = false ∧
    ¬ ((48 : Int) < TARGET_TEMPERATURE - TEMPERATURE_HYST_DELTA_DOWN) := by
  decide

/-- C6, amended: for every Active state and reading `t`, if the controller is
Idle after the tick then `t ≤ TARGET - HYST_DOWN` (48): an Active fan turns off
only when the temperature is at or below `TARGET - HYST_DOWN`. -/
theorem turn_off_only_at_or_below_48 (s : Controller) (t : Int)
    (hact : s.isFanActive = true) (hoff : (tick s t).1.isFanActive = false) :
    t ≤ TARGET_TEMPERATURE - TEMPERATURE_HYST_DELTA_DOWN ∧
    TARGET_TEMPERATURE - TEMPERATURE_HYST_DELTA_DOWN = 48 := by
  have hiff := tick_active_iff s t
  rw [hact, minTemperatures_active] at hiff
  have hnot : ¬ t > 48 := by
    intro hgt
    rw [hiff.2 hgt] at hoff
    cases hoff
  refine ⟨?_, by decide⟩
  simp only [TARGET_TEMPERATURE, TEMPERATURE_HYST_DELTA_DOWN]
  omega

/-- Witness of C6 (amended): an active state and the reading 48. -/
theorem turn_off_only_at_or_below_48_witness :
    (⟨⟨60, 60, 60, 60⟩, 2, true, 70, 120⟩ : Controller).isFanActive = true ∧
    (tick ⟨⟨60, 60, 60, 60⟩, 2, true, 70, 120⟩ 48).1.isFanActive = false ∧
    (48 : Int) ≤ TARGET_TEMPERATURE - TEMPERATURE_HYST_DELTA_DOWN :=
  ⟨rfl, by decide,
    (turn_off_only_at_or_below_48 ⟨⟨60, 60, 60, 60⟩, 2, true, 70, 120⟩ 48 rfl (by decide)).1⟩

/-- C7, as stated, fails: from the idle start state with history
`[20,20,20,20]` the first tick with reading 56 leaves the controller Idle with
speed 0 and writes nothing to the actuator (56 does not exceed the Idle
threshold 56). -/
theorem scenario_first_tick_56_counterexample :
    ¬ ((tick (mainInit 20) 56).1.isFanActive = true ∧ (tick (mainInit 20) 56).2 = some 50) := by
  decide

/-- C7, amended: from Idle with history `[20,20,20,20]`, write index 0,
correction 0 and speed 0, the first tick with reading 56 leaves the controller
Idle with speed 0 and commands nothing; with the reading 57 the first tick leaves
it Active and commands speed 50. -/
theorem scenario_first_tick :
    mainInit 20 = ⟨⟨20, 20, 20, 20⟩, 0, false, 0, 0⟩ ∧
    tick (mainInit 20) 56 = (⟨⟨56, 20, 20, 20⟩, 1, false, 0, 0⟩, none) ∧
    tick (mainInit 20) 57 = (⟨⟨57, 20, 20, 20⟩, 1, true, -40, 50⟩, some 50) := by
  decide

/-- The `pwmWrite` calls of a run are the writes the specification asks for on
the sequence of speeds the ticks compute. -/
theorem writes_eq_specWrites (ts : List Int) :
    ∀ s : Controller,
      writes s ts = specWrites s.fanSpeed ((trace s ts).map fun r => r.1.fanSpeed) := by
  induction ts with
  | nil => intro s; rfl
  | cons t ts ih =>
    intro s
    have hrec := ih (tick s t).1
    simp only [writes] at hrec ⊢
    simp only [trace, List.map_cons, specWrites, List.filterMap_cons, tick_snd]
    split_ifs with hne
    · rw [hrec]
    · rw [hrec]

/-- A run in which every tick computes the speed the run started with makes no
`pwmWrite` call. -/
theorem writes_nil_of_constant_speed (ts : List Int) :
    ∀ s : Controller, (∀ r ∈ trace s ts, r.1.fanSpeed = s.fanSpeed) → writes s ts = [] := by
  induction ts with
  | nil => intro s _; rfl
  | cons t ts ih =>
    intro s hall
    have hhead : (tick s t).1.fanSpeed = s.fanSpeed :=
      hall (tick s t) (by simp [trace])
    have htail : writes (tick s t).1 ts = [] := by
      apply ih
      intro r hr
      rw [hhead]
      exact hall r (by simp [trace, hr])
    simp only [writes] at htail ⊢
    simp only [trace, List.filterMap_cons, tick_snd, hhead, ne_eq, not_true_eq_false, if_false]
    exact htail

/-- C8: a tick issues an actuator command if and only if the speed it computes
differs from the speed left by the previous tick, and the value commanded is
then the newly computed speed; over a whole run the commands are exactly the
speeds that differ from their predecessor, so a run whose ticks all compute the
same speed as the tick before sends the actuator nothing. -/
theorem write_iff_speed_changed (s : Controller) (t : Int) (ts : List Int) :
    ((∃ v, (tick s t).2 = some v) ↔ (tick s t).1.fanSpeed ≠ s.fanSpeed) ∧
    (∀ v, (tick s t).2 = some v → v = (tick s t).1.fanSpeed) ∧
    writes s ts = specWrites s.fanSpeed ((trace s ts).map fun r => r.1.fanSpeed) ∧
    ((∀ r ∈ trace s ts, r.1.fanSpeed = s.fanSpeed) → writes s ts = []) := by
  refine ⟨?_, ?_, writes_eq_specWrites ts s, writes_nil_of_constant_speed ts s⟩
  · rw [tick_snd]
    split_ifs with hne
    · exact ⟨fun _ => hne, fun _ => ⟨_, rfl⟩⟩
    · exact ⟨fun ⟨_, hv⟩ => hv.elim, fun h => absurd h hne⟩
  · intro v hv
    rw [tick_snd] at hv
    split_ifs at hv
    · cases hv
      rfl

/-- C9: for every state and every reading `t ≥ 73`, for which the base speed
`clamp(10*(t - 53), 0, 200)` already equals `MAX_SPEED`, the correction after
the tick is `≤ 0` and the speed after the tick is `≤ MAX_SPEED` (200). -/
theorem anti_windup_at_full_base (s : Controller) (t : Int) (ht : 73 ≤ t) :
    clamp (SPEED_MAIN_SCALE_FACTOR * (t - TARGET_TEMPERATURE)) 0 MAX_SPEED = MAX_SPEED ∧
    specBase t = 200 ∧
    (tick s t).1.fanSpeedCorretion ≤ 0 ∧
    (tick s t).1.fanSpeed ≤ MAX_SPEED ∧
    MAX_SPEED = 200 := by
  have hbase : specBase t = 200 := by
    simp only [specBase, specClamp]
    omega
  have hon : t > minTemperatures s.isFanActive.toNat := by
    cases s.isFanActive
    · rw [minTemperatures_idle]; omega
    · rw [minTemperatures_active]; omega
  refine ⟨?_, hbase, ?_, ?_, rfl⟩
  · rw [clamp_eq_specClamp _ _ _ (by decide)]
    exact hbase
  · rw [tick_on s t hon, hbase]
    simp only [specClamp]
    omega
  · rw [tick_on s t hon, hbase]
    simp only [specClamp, MAX_SPEED]
    omega

/-- Witness of C9: the idle start state and the reading 73, the least one with
full base speed. -/
theorem anti_windup_at_full_base_witness :
    (73 : Int) ≤ 73 ∧
    (tick (mainInit 90) 73).1.fanSpeedCorretion ≤ 0 ∧
    (tick (mainInit 90) 73).1.fanSpeed ≤ MAX_SPEED :=
  ⟨le_refl 73, (anti_windup_at_full_base (mainInit 90) 73 (le_refl 73)).2.2.1,
    (anti_windup_at_full_base (mainInit 90) 73 (le_refl 73)).2.2.2.1⟩

theorem Temperatures.get_set_self (h : Temperatures) (i : Nat) (v : Int) (hi : i < 4) :
    (h.set i v).get i = v := by
  match i, hi with
  | 0, _ => rfl
  | 1, _ => rfl
  | 2, _ => rfl
  | 3, _ => rfl

theorem Temperatures.get_set_other (h : Temperatures) (i j : Nat) (v : Int)
    (hi : i < 4) (hj : j < 4) (hij : j ≠ i) :
    (h.set i v).get j = h.get j := by
  interval_cases i <;> interval_cases j <;> first | rfl | exact absurd rfl hij

/-- Masking with `TEMPERATURES_COUNT_MASK` is reduction modulo 4. -/
theorem and_mask_eq_mod (n : Nat) : n &&& TEMPERATURES_COUNT_MASK = n % 4 :=
  Nat.and_pow_two_sub_one_eq_mod n 2

theorem run_append_singleton (s : Controller) (ts : List Int) (t : Int) :
    run s (ts ++ [t]) = (tick (run s ts) t).1 := by
  simp [run, List.foldl_append]

/-- What a tick does to the history and the write index, whatever the branch. -/
theorem tick_history (s : Controller) (t : Int) :
    (tick s t).1.temperatures = s.temperatures.set s.crtTemperatureNo t ∧
    (tick s t).1.crtTemperatureNo = (s.crtTemperatureNo + 1) % 4 := by
  rw [← and_mask_eq_mod]
  by_cases h : t > minTemperatures s.isFanActive.toNat
  · rw [tick_on s t h]
    exact ⟨rfl, rfl⟩
  · cases hact : s.isFanActive
    · rw [tick_stay s t hact h]
      exact ⟨rfl, rfl⟩
    · rw [tick_off s t hact h]
      exact ⟨rfl, rfl⟩

/-- Ring-buffer invariant of the history over a run from the start state. -/
theorem run_history_invariant (t0 : Int) (ts : List Int) :
    (run (mainInit t0) ts).crtTemperatureNo = ts.length % 4 ∧
    ∀ i : Nat, i < 4 →
      (∀ k : Nat, k < ts.length → k % 4 = i →
          (∀ k2 : Nat, k2 < ts.length → k2 % 4 = i → k2 ≤ k) →
          ts[k]? = some ((run (mainInit t0) ts).temperatures.get i)) ∧
      ((∀ k : Nat, k < ts.length → k % 4 ≠ i) →
          (run (mainInit t0) ts).temperatures.get i = t0) := by
  induction ts using List.reverseRecOn with
  | nil =>
    refine ⟨rfl, ?_⟩
    intro i hi
    refine ⟨fun k hk => absurd hk (Nat.not_lt_zero k), fun _ => ?_⟩
    match i, hi with
    | 0, _ => rfl
    | 1, _ => rfl
    | 2, _ => rfl
    | 3, _ => rfl
  | append_singleton ts t ih =>
    obtain ⟨hidx, hslots⟩ := ih
    have hstep := tick_history (run (mainInit t0) ts) t
    rw [run_append_singleton]
    rw [hstep.1, hstep.2, hidx]
    have hlen : (ts ++ [t]).length = ts.length + 1 := by simp
    have hlt : ts.length % 4 < 4 := Nat.mod_lt _ (by decide)
    refine ⟨by rw [hlen]; omega, ?_⟩
    intro i hi
    by_cases hcur : i = ts.length % 4
    · subst hcur
      rw [Temperatures.get_set_self _ _ _ hlt]
      refine ⟨?_, ?_⟩
      · intro k hk hmod hmax
        have hkn : k = ts.length := by
          have := hmax ts.length (by rw [hlen]; omega) rfl
          rw [hlen] at hk
          omega
        subst hkn
        simp
      · intro hnone
        exact absurd rfl (hnone ts.length (by rw [hlen]; omega))
    · rw [Temperatures.get_set_other _ _ _ _ hlt hi hcur]
      obtain ⟨hlatest, hnone⟩ := hslots i hi
      refine ⟨?_, ?_⟩
      · intro k hk hmod hmax
        have hkn : k < ts.length := by
          rw [hlen] at hk
          have : k ≠ ts.length := by
            intro heq
            subst heq
            exact hcur hmod.symm
          omega
        rw [List.getElem?_append_left hkn]
        exact hlatest k hkn hmod (fun k2 hk2 hm2 => hmax k2 (by rw [hlen]; omega) hm2)
      · intro habs
        exact hnone (fun k hk => habs k (by rw [hlen]; omega))

/-- C10: after `n` ticks from the start state for the initial reading `t0`, the
write index equals `n mod 4` (so it indexes inside the 4-slot array) and slot `i`
holds the latest reading whose 0-based tick number is congruent to `i` modulo 4,
or `t0` when there is none; hence for `n ≥ 4` the four slots, read from the
write index on, are the four most recent readings, oldest first. -/
theorem history_is_ring_of_last_four (t0 : Int) (ts : List Int) :
    (run (mainInit t0) ts).crtTemperatureNo = ts.length % 4 ∧
    (run (mainInit t0) ts).crtTemperatureNo < TEMPERATURES_COUNT ∧
    (∀ i : Nat, i < 4 →
      (∀ k : Nat, k < ts.length → k % 4 = i →
          (∀ k2 : Nat, k2 < ts.length → k2 % 4 = i → k2 ≤ k) →
          ts[k]? = some ((run (mainInit t0) ts).temperatures.get i)) ∧
      ((∀ k : Nat, k < ts.length → k % 4 ≠ i) →
          (run (mainInit t0) ts).temperatures.get i = t0)) ∧
    (4 ≤ ts.length → ∀ j : Nat, j < 4 →
      ts[ts.length - 4 + j]? =
        some ((run (mainInit t0) ts).temperatures.get ((ts.length + j) % 4))) := by
  obtain ⟨hidx, hslots⟩ := run_history_invariant t0 ts
  refine ⟨hidx, ?_, hslots, ?_⟩
  · rw [hidx]
    exact Nat.mod_lt _ (by decide)
  · intro hn j hj
    have hmod : (ts.length - 4 + j) % 4 = (ts.length + j) % 4 := by omega
    have hi : (ts.length + j) % 4 < 4 := Nat.mod_lt _ (by decide)
    exact (hslots _ hi).1 (ts.length - 4 + j) (by omega) hmod
      (fun k2 hk2 hm2 => by omega)

/-- C12: for every Idle state and every reading that does not exceed the
turn-on threshold applied on that tick, one tick leaves active, correction and
speed unchanged and issues no actuator command; only the history slot written
and the write index change. -/
theorem idle_below_threshold_frame (s : Controller) (t : Int)
    (hidle : s.isFanActive = false)
    (hlow : ¬ t > minTemperatures s.isFanActive.toNat) :
    (tick s t).1.isFanActive = s.isFanActive ∧
    (tick s t).1.fanSpeedCorretion = s.fanSpeedCorretion ∧
    (tick s t).1.fanSpeed = s.fanSpeed ∧
    (tick s t).2 = none ∧
    (tick s t).1.crtTemperatureNo = (s.crtTemperatureNo + 1) % 4 ∧
    (tick s t).1.temperatures = s.temperatures.set s.crtTemperatureNo t ∧
    (∀ j : Nat, j < 4 → j ≠ s.crtTemperatureNo →
      (tick s t).1.temperatures.get j = s.temperatures.get j) := by
  have hspeed : (tick s t).1.fanSpeed = s.fanSpeed := by
    rw [tick_stay s t hidle hlow]
  have hhist := tick_history s t
  refine ⟨?_, ?_, hspeed, ?_, hhist.2, hhist.1, ?_⟩
  · rw [tick_stay s t hidle hlow, hidle]
  · rw [tick_stay s t hidle hlow]
  · rw [tick_snd, hspeed]
    simp
  · intro j hj hne
    rw [hhist.1]
    by_cases hi : s.crtTemperatureNo < 4
    · exact Temperatures.get_set_other _ _ _ _ hi hj hne
    · have hset : s.temperatures.set s.crtTemperatureNo t = s.temperatures := by
        obtain ⟨k, hk⟩ : ∃ k, s.crtTemperatureNo = k + 4 := ⟨s.crtTemperatureNo - 4, by omega⟩
        rw [hk]
        rfl
      rw [hset]

/-- Witness of C12: the idle start state with history 20 and the reading 56,
which does not exceed the turn-on threshold 56. -/
theorem idle_below_threshold_frame_witness :
    (mainInit 20).isFanActive = false ∧
    ¬ (56 : Int) > minTemperatures (mainInit 20).isFanActive.toNat ∧
    (tick (mainInit 20) 56).1.fanSpeed = (mainInit 20).fanSpeed ∧
    (tick (mainInit 20) 56).2 = none :=
  ⟨rfl, by decide,
    (idle_below_threshold_frame (mainInit 20) 56 rfl (by decide)).2.2.1,
    (idle_below_threshold_frame (mainInit 20) 56 rfl (by decide)).2.2.2.1⟩

/-- A tick keeps the property that an idle controller has speed 0 and
correction 0. -/
theorem tick_idle_zero (s : Controller) (t : Int)
    (h : s.isFanActive = false → s.fanSpeed = 0 ∧ s.fanSpeedCorretion = 0) :
    (tick s t).1.isFanActive = false →
      (tick s t).1.fanSpeed = 0 ∧ (tick s t).1.fanSpeedCorretion = 0 := by
  by_cases hon : t > minTemperatures s.isFanActive.toNat
  · rw [tick_on s t hon]
    intro hcontra
    exact Bool.noConfusion hcontra
  · cases hact : s.isFanActive
    · rw [tick_stay s t hact hon]
      intro _
      exact h hact
    · rw [tick_off s t hact hon]
      intro _
      exact ⟨rfl, rfl⟩

theorem run_cons (s : Controller) (t : Int) (ts : List Int) :
    run s (t :: ts) = run (tick s t).1 ts :=
  rfl

theorem run_idle_zero (ts : List Int) :
    ∀ s : Controller, (s.isFanActive = false → s.fanSpeed = 0 ∧ s.fanSpeedCorretion = 0) →
      (run s ts).isFanActive = false →
        (run s ts).fanSpeed = 0 ∧ (run s ts).fanSpeedCorretion = 0 := by
  induction ts with
  | nil => intro s h; exact h
  | cons t ts ih =>
    intro s h
    rw [run_cons]
    exact ih _ (tick_idle_zero s t h)

/-- C13: in every state reachable from the initial state (Idle, speed 0,
correction 0, history pre-filled with one reading) by any sequence of readings,
a controller that is Idle has speed 0 and correction 0; hence a nonzero speed
occurs only while Active. -/
theorem reachable_idle_has_zero_speed (t0 : Int) (ts : List Int) :
    ((run (mainInit t0) ts).isFanActive = false →
      (run (mainInit t0) ts).fanSpeed = 0 ∧ (run (mainInit t0) ts).fanSpeedCorretion = 0) ∧
    ((run (mainInit t0) ts).fanSpeed ≠ 0 → (run (mainInit t0) ts).isFanActive = true) := by
  have h := run_idle_zero ts (mainInit t0) (fun _ => ⟨rfl, rfl⟩)
  refine ⟨h, fun hne => ?_⟩
  cases hact : (run (mainInit t0) ts).isFanActive
  · exact absurd (h hact).1 hne
  · rfl

/-- Witness of C13: the fan is started by the reading 60 and stopped by the
reading 40. -/
theorem reachable_idle_has_zero_speed_witness :
    (run (mainInit 20) [60, 40]).isFanActive = false ∧
    (run (mainInit 20) [60, 40]).fanSpeed = 0 ∧
    (run (mainInit 20) [60, 40]).fanSpeedCorretion = 0 :=
  ⟨by decide, (reachable_idle_has_zero_speed 20 [60, 40]).1 (by decide)⟩

/-- On the fan-on branch the correction ends inside `[-200, 200]`. -/
theorem tick_correction_bounds (s : Controller) (t : Int)
    (h0 : -200 ≤ s.fanSpeedCorretion) (h1 : s.fanSpeedCorretion ≤ 200) :
    -200 ≤ (tick s t).1.fanSpeedCorretion ∧ (tick s t).1.fanSpeedCorretion ≤ 200 := by
  by_cases hon : t > minTemperatures s.isFanActive.toNat
  · rw [tick_on s t hon]
    have hb := specBase_bounds t
    simp only [specClamp]
    omega
  · cases hact : s.isFanActive
    · rw [tick_stay s t hact hon]
      exact ⟨h0, h1⟩
    · rw [tick_off s t hact hon]
      exact ⟨show (-200 : Int) ≤ 0 by decide, show (0 : Int) ≤ 200 by decide⟩

theorem run_correction_bounds (ts : List Int) :
    ∀ s : Controller, -200 ≤ s.fanSpeedCorretion → s.fanSpeedCorretion ≤ 200 →
      -200 ≤ (run s ts).fanSpeedCorretion ∧ (run s ts).fanSpeedCorretion ≤ 200 := by
  induction ts with
  | nil => intro s h0 h1; exact ⟨h0, h1⟩
  | cons t ts ih =>
    intro s h0 h1
    rw [run_cons]
    have hb := tick_correction_bounds s t h0 h1
    exact ih _ hb.1 hb.2

/-- C16: in every state reachable from the initial state (correction 0) by any
sequence of readings, the correction accumulator lies in `[-200, 200]`, however
many ticks the error has been accumulating. -/
theorem reachable_correction_bounded (t0 : Int) (ts : List Int) :
    (mainInit t0).fanSpeedCorretion = 0 ∧
    -200 ≤ (run (mainInit t0) ts).fanSpeedCorretion ∧
    (run (mainInit t0) ts).fanSpeedCorretion ≤ 200 :=
  ⟨rfl, run_correction_bounds ts (mainInit t0)
    (show (-200 : Int) ≤ 0 by decide) (show (0 : Int) ≤ 200 by decide)⟩

/-- Clamping the accumulator to `[-base, 200 - base]` and then adding `base` is
clamping the sum to `[0, 200]`. -/
theorem base_add_specClamp (base x : Int) :
    base + specClamp x (-base) (200 - base) = specClamp (base + x) 0 200 := by
  simp only [specClamp]
  omega

/-- The speed left by a tick on the fan-on branch, as one clamp of the sum of
base speed, prior correction and scaled average error. -/
theorem tick_on_speed (s : Controller) (t : Int)
    (h : t > minTemperatures s.isFanActive.toNat) :
    (tick s t).1.fanSpeed =
      max 50
        (specClamp
          (specBase t + (s.fanSpeedCorretion
            + 5 * (specAvg (s.temperatures.set s.crtTemperatureNo t) - 53)))
          0 200) := by
  rw [tick_on s t h]
  simp only []
  rw [base_add_specClamp, max_comm]

/-- C15: for every state and every reading that takes the fan-on branch, the
speed after the tick equals `max(50, clamp(base + correction + 5*(avg - 53), 0, 200))`
with `base = clamp(10*(t - 53), 0, 200)`, `correction` the accumulator before the
tick and `avg` the floored mean of the updated history; clamping the accumulator
to `[-base, 200 - base]` and then adding `base` is the same as clamping the
unclamped sum to `[0, 200]`. -/
theorem speed_is_clamped_sum (s : Controller) (t : Int)
    (h : t > minTemperatures s.isFanActive.toNat) :
    (tick s t).1.fanSpeed =
        max 50
          (specClamp
            (specBase t + s.fanSpeedCorretion + 5 * (specAvg (tick s t).1.temperatures - 53))
            0 200) ∧
    (tick s t).1.temperatures = s.temperatures.set s.crtTemperatureNo t ∧
    (∀ x : Int,
      specBase t + clamp x (-specBase t) (MAX_SPEED - specBase t)
        = specClamp (specBase t + x) 0 200) := by
  have hb := specBase_bounds t
  refine ⟨?_, (tick_history s t).1, ?_⟩
  · rw [(tick_history s t).1, tick_on_speed s t h, add_assoc]
  · intro x
    rw [clamp_eq_specClamp _ _ _ (by simp only [MAX_SPEED]; omega)]
    exact base_add_specClamp (specBase t) x

/-- Witness of C15: the start state with history 20 and the reading 60. -/
theorem speed_is_clamped_sum_witness :
    (60 : Int) > minTemperatures (mainInit 20).isFanActive.toNat ∧
    (tick (mainInit 20) 60).1.fanSpeed =
      max 50
        (specClamp
          (specBase 60 + (mainInit 20).fanSpeedCorretion
            + 5 * (specAvg (tick (mainInit 20) 60).1.temperatures - 53))
          0 200) :=
  ⟨by decide, (speed_is_clamped_sum (mainInit 20) 60 (by decide)).1⟩

/-- The floored mean of the history grows with the value stored in it. -/
theorem specAvg_set_mono (h : Temperatures) (i : Nat) (t1 t2 : Int) (h12 : t1 ≤ t2) :
    specAvg (h.set i t1) ≤ specAvg (h.set i t2) := by
  rw [specAvg_eq_div, specAvg_eq_div]
  match i with
  | 0 => simp only [Temperatures.set]; omega
  | 1 => simp only [Temperatures.set]; omega
  | 2 => simp only [Temperatures.set]; omega
  | 3 => simp only [Temperatures.set]; omega
  | _ + 4 => simp only [Temperatures.set]; omega

theorem specBase_mono (t1 t2 : Int) (h12 : t1 ≤ t2) : specBase t1 ≤ specBase t2 := by
  simp only [specBase, specClamp]
  omega

/-- The speed left by a tick that does not take the fan-on branch is the prior
speed of an idle controller and 0 for an active one. -/
theorem tick_not_on_speed (s : Controller) (t : Int)
    (h : ¬ t > minTemperatures s.isFanActive.toNat) :
    (tick s t).1.fanSpeed = if s.isFanActive = true then 0 else s.fanSpeed := by
  cases hact : s.isFanActive
  · rw [tick_stay s t hact h]
    simp
  · rw [tick_off s t hact h]
    simp

/-- C14: for every prior state in which Idle implies speed 0, and every two
readings `t1 ≤ t2` applied to that same prior state, the speed after the tick
with `t1` is at most the speed after the tick with `t2`: the speed is monotone
non-decreasing in the current reading, also across the turn-on and turn-off
thresholds. -/
theorem speed_monotone_in_reading (s : Controller) (t1 t2 : Int)
    (hs : s.isFanActive = false → s.fanSpeed = 0) (h12 : t1 ≤ t2) :
    (tick s t1).1.fanSpeed ≤ (tick s t2).1.fanSpeed := by
  have hzero : (if s.isFanActive = true then 0 else s.fanSpeed) = 0 := by
    cases hact : s.isFanActive
    · simpa using hs hact
    · simp
  by_cases h1 : t1 > minTemperatures s.isFanActive.toNat
  · have h2 : t2 > minTemperatures s.isFanActive.toNat := lt_of_lt_of_le h1 h12
    rw [tick_on_speed s t1 h1, tick_on_speed s t2 h2]
    have hb := specBase_mono t1 t2 h12
    have ha := specAvg_set_mono s.temperatures s.crtTemperatureNo t1 t2 h12
    simp only [specClamp]
    omega
  · rw [tick_not_on_speed s t1 h1, hzero]
    by_cases h2 : t2 > minTemperatures s.isFanActive.toNat
    · rw [tick_on_speed s t2 h2]
      omega
    · rw [tick_not_on_speed s t2 h2, hzero]

/-- Witness of C14: the idle start state with the readings 50 (fan stays off)
and 60 (fan starts). -/
theorem speed_monotone_in_reading_witness :
    ((mainInit 20).isFanActive = false → (mainInit 20).fanSpeed = 0) ∧
    (50 : Int) ≤ 60 ∧
    (tick (mainInit 20) 50).1.fanSpeed ≤ (tick (mainInit 20) 60).1.fanSpeed :=
  ⟨fun _ => rfl, by decide,
    speed_monotone_in_reading (mainInit 20) 50 60 (fun _ => rfl) (by decide)⟩

/-- Four stores at successive indices fill the whole history. -/
theorem Temperatures.set_four (h : Temperatures) (i : Nat) (t : Int) (hi : i < 4) :
    (((h.set i t).set ((i + 1) % 4) t).set (((i + 1) % 4 + 1) % 4) t).set
        ((((i + 1) % 4 + 1) % 4 + 1) % 4) t = ⟨t, t, t, t⟩ := by
  cases h
  interval_cases i <;> rfl

/-- A store into a history that holds `t` in every slot changes nothing. -/
theorem Temperatures.set_full (i : Nat) (t : Int) :
    (⟨t, t, t, t⟩ : Temperatures).set i t = ⟨t, t, t, t⟩ := by
  match i with
  | 0 => rfl
  | 1 => rfl
  | 2 => rfl
  | 3 => rfl
  | _ + 4 => rfl

theorem specAvg_full (t : Int) : specAvg ⟨t, t, t, t⟩ = t := by
  rw [specAvg_eq_div]
  simp only []
  omega

/-- A tick of an active controller with a reading of at least 54: the fan-on
branch is taken, and the correction ends inside `[-base, 200 - base]`. -/
theorem tick_hold (s : Controller) (t : Int) (hact : s.isFanActive = true) (ht : 54 ≤ t) :
    (tick s t).1.isFanActive = true ∧
    (tick s t).1.temperatures = s.temperatures.set s.crtTemperatureNo t ∧
    (tick s t).1.crtTemperatureNo = (s.crtTemperatureNo + 1) % 4 ∧
    -specBase t ≤ (tick s t).1.fanSpeedCorretion := by
  have hon : t > minTemperatures s.isFanActive.toNat := by
    rw [hact, minTemperatures_active]
    omega
  have hb := specBase_bounds t
  refine ⟨(tick_active_iff s t).2 hon, (tick_history s t).1, (tick_history s t).2, ?_⟩
  rw [tick_on s t hon]
  simp only [specClamp]
  omega

/-- A tick of an active controller whose history is full of `t` once `t` is
stored: the correction gains at least 5, up to the cap `200 - base`. -/
theorem tick_hold_full (s : Controller) (t k : Int)
    (hact : s.isFanActive = true) (ht : 54 ≤ t)
    (hfull : s.temperatures.set s.crtTemperatureNo t = ⟨t, t, t, t⟩)
    (hk : min (200 - specBase t) (-specBase t + k) ≤ s.fanSpeedCorretion) :
    (tick s t).1.isFanActive = true ∧
    (tick s t).1.temperatures.set (tick s t).1.crtTemperatureNo t = ⟨t, t, t, t⟩ ∧
    min (200 - specBase t) (-specBase t + (k + 5)) ≤ (tick s t).1.fanSpeedCorretion ∧
    (tick s t).1.fanSpeedCorretion ≤ 200 - specBase t ∧
    (tick s t).1.fanSpeed = max (specBase t + (tick s t).1.fanSpeedCorretion) 50 := by
  have hon : t > minTemperatures s.isFanActive.toNat := by
    rw [hact, minTemperatures_active]
    omega
  have hb := specBase_bounds t
  have hhold := tick_hold s t hact ht
  refine ⟨hhold.1, ?_, ?_, ?_, ?_⟩
  · rw [hhold.2.1, hfull, Temperatures.set_full]
  · rw [tick_on s t hon, hfull, specAvg_full]
    simp only [specClamp]
    omega
  · rw [tick_on s t hon]
    simp only [specClamp]
    omega
  · rw [tick_on s t hon]

/-- Over `n` ticks at a constant reading `t ≥ 54`, from an active state whose
history is full of `t` once `t` is stored, the correction gains at least `5 n`,
up to the cap `200 - base`. -/
theorem run_hold_full (t : Int) (ht : 54 ≤ t) (n : Nat) :
    ∀ (s : Controller) (k : Int), s.isFanActive = true →
      s.temperatures.set s.crtTemperatureNo t = ⟨t, t, t, t⟩ →
      min (200 - specBase t) (-specBase t + k) ≤ s.fanSpeedCorretion →
      (run s (List.replicate n t)).isFanActive = true ∧
      min (200 - specBase t) (-specBase t + (k + 5 * (n : Int)))
        ≤ (run s (List.replicate n t)).fanSpeedCorretion ∧
      (0 < n →
        (run s (List.replicate n t)).fanSpeedCorretion ≤ 200 - specBase t ∧
        (run s (List.replicate n t)).fanSpeed
          = max (specBase t + (run s (List.replicate n t)).fanSpeedCorretion) 50) := by
  induction n using Nat.strong_induction_on with
  | _ n ih =>
    intro s k hact hfull hk
    match n, ih with
    | 0, _ =>
      refine ⟨hact, ?_, fun h => absurd h (Nat.lt_irrefl 0)⟩
      simpa [run] using hk
    | 1, _ =>
      have hstep := tick_hold_full s t k hact ht hfull hk
      have hrun : run s (List.replicate 1 t) = (tick s t).1 := rfl
      rw [hrun]
      refine ⟨hstep.1, ?_, fun _ => ⟨hstep.2.2.2.1, hstep.2.2.2.2⟩⟩
      have := hstep.2.2.1
      simpa using this
    | m + 2, ih =>
      have hstep := tick_hold_full s t k hact ht hfull hk
      have hrun : run s (List.replicate (m + 2) t)
          = run (tick s t).1 (List.replicate (m + 1) t) := rfl
      rw [hrun]
      have hrec := ih (m + 1) (by omega) (tick s t).1 (k + 5) hstep.1 hstep.2.1 hstep.2.2.1
      refine ⟨hrec.1, ?_, fun _ => hrec.2.2 (by omega)⟩
      have := hrec.2.1
      push_cast at this ⊢
      omega

/-- C17: for every Active state (any history, any correction) and every
constant reading `t ≥ 54`, after every number of ticks `n ≥ 44` with the reading
held at `t` the controller is Active and the speed is exactly `MAX_SPEED` (200). -/
theorem sustained_heat_reaches_max_speed (s : Controller) (t : Int) (n : Nat)
    (hact : s.isFanActive = true) (ht : 54 ≤ t) (hn : 44 ≤ n) :
    (run s (List.replicate n t)).isFanActive = true ∧
    (run s (List.replicate n t)).fanSpeed = MAX_SPEED ∧
    MAX_SPEED = 200 := by
  obtain ⟨m, rfl⟩ : ∃ m, n = m + 4 := ⟨n - 4, by omega⟩
  have hb := specBase_bounds t
  have h1 := tick_hold s t hact ht
  have h2 := tick_hold _ t h1.1 ht
  have h3 := tick_hold _ t h2.1 ht
  have h4 := tick_hold _ t h3.1 ht
  have hrun : run s (List.replicate (m + 4) t)
      = run (tick (tick (tick (tick s t).1 t).1 t).1 t).1 (List.replicate m t) := rfl
  have hi : (tick s t).1.crtTemperatureNo < 4 := by
    rw [h1.2.2.1]
    exact Nat.mod_lt _ (by decide)
  have hfull : (tick (tick (tick (tick s t).1 t).1 t).1 t).1.temperatures.set
      (tick (tick (tick (tick s t).1 t).1 t).1 t).1.crtTemperatureNo t = ⟨t, t, t, t⟩ := by
    rw [h4.2.1, h4.2.2.1, h3.2.1, h3.2.2.1, h2.2.1, h2.2.2.1]
    exact Temperatures.set_four _ _ t hi
  have hrest := run_hold_full t ht m _ 0 h4.1 hfull (by have := h4.2.2.2; omega)
  rw [hrun]
  obtain ⟨hA, hlow, hup⟩ := hrest
  obtain ⟨hcap, hspeed⟩ := hup (by omega)
  refine ⟨hA, ?_, rfl⟩
  rw [hspeed]
  simp only [MAX_SPEED]
  have hm : (40 : Int) ≤ (m : Int) := by omega
  omega

/-- Witness of C17: an active state with a cold history and a large negative
correction, the reading held at 54 for 44 ticks. -/
theorem sustained_heat_reaches_max_speed_witness :
    (⟨⟨-100, -100, -100, -100⟩, 0, true, -5000, 50⟩ : Controller).isFanActive = true ∧
    (54 : Int) ≤ 54 ∧ 44 ≤ 44 ∧
    (run ⟨⟨-100, -100, -100, -100⟩, 0, true, -5000, 50⟩ (List.replicate 44 54)).fanSpeed
      = MAX_SPEED :=
  ⟨rfl, le_refl 54, le_refl 44,
    (sustained_heat_reaches_max_speed ⟨⟨-100, -100, -100, -100⟩, 0, true, -5000, 50⟩ 54 44
      rfl (le_refl 54) (le_refl 44)).2.1⟩

/-! ## The sensor read -/

/-- The character of a decimal digit is a digit with that value, and is neither
a newline, white space nor a sign. -/
theorem digitChar_facts (k : Nat) (hk : k < 10) :
    (Nat.digitChar k).isDigit = true ∧ ((Nat.digitChar k).toNat : Int) - 48 = (k : Int) ∧
      Nat.digitChar k ≠ Char.ofNat 10 ∧ isspace (Nat.digitChar k) = false ∧
      Nat.digitChar k ≠ Char.ofNat 45 ∧ Nat.digitChar k ≠ Char.ofNat 43 := by
  interval_cases k <;> decide

/-- The digits printed by `Nat.toDigitsCore` are put in front of the accumulator. -/
theorem toDigitsCore_append (f : Nat) :
    ∀ (n : Nat) (ds : List Char),
      Nat.toDigitsCore 10 f n ds = Nat.toDigitsCore 10 f n [] ++ ds := by
  induction f with
  | zero => intro n ds; simp [Nat.toDigitsCore]
  | succ f ih =>
    intro n ds
    simp only [Nat.toDigitsCore]
    split_ifs
    · simp
    · rw [ih (n / 10) (Nat.digitChar (n % 10) :: ds), ih (n / 10) [Nat.digitChar (n % 10)]]
      simp

/-- One step of decimal printing: the last digit follows the digits of the
quotient. -/
theorem toDigitsCore_succ (f n : Nat) :
    Nat.toDigitsCore 10 (f + 1) n [] =
      if n / 10 = 0 then [Nat.digitChar (n % 10)]
      else Nat.toDigitsCore 10 f (n / 10) [] ++ [Nat.digitChar (n % 10)] := by
  simp only [Nat.toDigitsCore]
  split_ifs
  · rfl
  · exact toDigitsCore_append f (n / 10) _

/-- Decimal value read by the digit loop over a text of digits. -/
theorem atoiDigits_append (xs : List Char) :
    ∀ (acc : Int) (rest : List Char), (∀ c ∈ xs, c.isDigit = true) →
      atoiDigits acc (xs ++ rest) =
        atoiDigits (xs.foldl (fun a c => 10 * a + ((c.toNat : Int) - 48)) acc) rest := by
  induction xs with
  | nil => intro acc rest _; rfl
  | cons x xs ih =>
    intro acc rest hall
    have hx : x.isDigit = true := hall x (by simp)
    simp only [List.cons_append, atoiDigits, hx, if_true, List.foldl_cons]
    exact ih _ rest (fun c hc => hall c (by simp [hc]))

/-- The decimal text of `n` consists of digits, is not empty, and its digits
read back as `n`. -/
theorem toDigitsCore_digits (f : Nat) :
    ∀ n : Nat, n < f →
      (∀ c ∈ Nat.toDigitsCore 10 f n [], c.isDigit = true ∧ c ≠ Char.ofNat 10) ∧
      (Nat.toDigitsCore 10 f n []).foldl (fun a c => 10 * a + ((c.toNat : Int) - 48)) 0
        = (n : Int) ∧
      (∃ d ds, Nat.toDigitsCore 10 f n [] = d :: ds) := by
  induction f with
  | zero => intro n hn; exact absurd hn (Nat.not_lt_zero n)
  | succ f ih =>
    intro n hn
    have hd := digitChar_facts (n % 10) (Nat.mod_lt _ (by decide))
    rw [toDigitsCore_succ]
    split_ifs with h0
    · refine ⟨?_, ?_, ⟨_, _, rfl⟩⟩
      · intro c hc
        simp only [List.mem_singleton] at hc
        subst hc
        exact ⟨hd.1, hd.2.2.1⟩
      · simp only [List.foldl_cons, List.foldl_nil]
        rw [hd.2.1]
        omega
    · obtain ⟨hall, hval, d, ds, hcons⟩ := ih (n / 10) (by omega)
      refine ⟨?_, ?_, ?_⟩
      · intro c hc
        simp only [List.mem_append, List.mem_singleton] at hc
        rcases hc with hc | hc
        · exact hall c hc
        · subst hc
          exact ⟨hd.1, hd.2.2.1⟩
      · rw [List.foldl_append, hval]
        simp only [List.foldl_cons, List.foldl_nil]
        rw [hd.2.1]
        omega
      · exact ⟨d, ds ++ [Nat.digitChar (n % 10)], by rw [hcons]; rfl⟩

/-- What `fgets` reads of one line: the whole line with its newline when it
fits, else its first characters. -/
theorem fgetsAux_line (k : Nat) :
    ∀ xs : List Char, (∀ c ∈ xs, c ≠ Char.ofNat 10) →
      fgetsAux k (xs ++ [Char.ofNat 10]) =
        if xs.length < k then xs ++ [Char.ofNat 10] else xs.take k := by
  induction k with
  | zero => intro xs _; simp [fgetsAux]
  | succ k ih =>
    intro xs hall
    cases xs with
    | nil => simp [fgetsAux]
    | cons x xs =>
      have hx : x ≠ Char.ofNat 10 := hall x (by simp)
      simp only [List.cons_append, fgetsAux, hx, if_false, List.length_cons,
        Nat.add_lt_add_iff_right, List.take_succ_cons, List.append_eq]
      rw [ih xs (fun c hc => hall c (by simp [hc]))]
      split_ifs <;> rfl

/-- A digit is neither white space nor a sign. -/
theorem isDigit_facts (c : Char) (h : c.isDigit = true) :
    isspace c = false ∧ c ≠ Char.ofNat 45 ∧ c ≠ Char.ofNat 43 := by
  refine ⟨?_, ?_, ?_⟩
  · simp only [Char.isDigit, Bool.and_eq_true, decide_eq_true_eq] at h
    have h1 : 48 ≤ c.toNat := h.1
    simp only [isspace, Bool.or_eq_false_iff, Bool.and_eq_false_iff, decide_eq_false_iff_not]
    omega
  · rintro rfl
    exact absurd h (by decide)
  · rintro rfl
    exact absurd h (by decide)

/-- What `atoi` reads from a text that starts with the digits of `n`, followed
by nothing or by a newline. -/
theorem atoi_digits (xs tail : List Char) (n : Int)
    (hall : ∀ c ∈ xs, c.isDigit = true)
    (hval : xs.foldl (fun a c => 10 * a + ((c.toNat : Int) - 48)) 0 = n)
    (hne : ∃ d ds, xs = d :: ds)
    (htail : tail = [] ∨ tail = [Char.ofNat 10]) :
    atoi (xs ++ tail) = n := by
  obtain ⟨d, ds, rfl⟩ := hne
  have hd := isDigit_facts d (hall d (by simp))
  have hdrop : List.dropWhile isspace (d :: ds ++ tail) = d :: (ds ++ tail) := by
    simp [List.dropWhile, hd.1]
  simp only [atoi, hdrop, hd.2.1, hd.2.2, if_false]
  rw [show d :: (ds ++ tail) = (d :: ds) ++ tail from rfl, atoiDigits_append _ _ _ hall, hval]
  rcases htail with rfl | rfl
  · rfl
  · rfl

/-- For every value below 100000 the sensor text is read whole:
`getTemperature` returns the value shifted right by 10 bits. -/
theorem getTemperature_of_lt (m : Nat) (hm : m < 100000) :
    getTemperature (sensorText m) = (m : Int) >>> TEMPERATURE_NORM_LOG := by
  obtain ⟨hall, hval, hne⟩ := toDigitsCore_digits (m + 1) m (Nat.lt_succ_self m)
  have hlen : (Nat.toDigitsCore 10 (m + 1) m []).length ≤ 5 :=
    Nat.toDigitsCore_length 10 (by decide) (m + 1) m 5 hm (by decide)
  have htext : sensorText m = Nat.toDigitsCore 10 (m + 1) m [] ++ [Char.ofNat 10] := rfl
  have hread : ∃ tail, (tail = [] ∨ tail = [Char.ofNat 10]) ∧
      fgets 6 (sensorText m) = Nat.toDigitsCore 10 (m + 1) m [] ++ tail := by
    rw [htext]
    simp only [fgets]
    rw [fgetsAux_line 5 _ (fun c hc => (hall c hc).2)]
    split_ifs with h5
    · exact ⟨_, Or.inr rfl, rfl⟩
    · exact ⟨[], Or.inl rfl, by rw [List.take_of_length_le hlen, List.append_nil]⟩
  obtain ⟨tail, htail, hfgets⟩ := hread
  simp only [getTemperature, hfgets]
  rw [atoi_digits _ tail (m : Int) (fun c hc => (hall c hc).1) hval hne htail]

/-- C11, at the least value of six digits: the sensor text `100000` followed by a
newline is cut by `fgets` to its first five characters `10000`, so
`getTemperature` returns `10000 >> 10 = 9`, whereas 100000 shifted right by 10
bits is 97. -/
theorem getTemperature_six_digits_cut :
    sensorText 100000 = ['1', '0', '0', '0', '0', '0', Char.ofNat 10] ∧
    fgets 6 (sensorText 100000) = ['1', '0', '0', '0', '0'] ∧
    getTemperature (sensorText 100000) = 9 ∧
    ((100000 : Int) >>> TEMPERATURE_NORM_LOG) = 97 ∧
    getTemperature (sensorText 100000) ≠ ((100000 : Nat) : Int) >>> TEMPERATURE_NORM_LOG := by
  decide

end FanCtl
